import Mathlib

/-!
Shallow embedding of the NetGraph client (network diagram view layer):
scene registries (main + minimap), pending-connection index, pan/zoom
transform state, minimap extent tracking and the inbound message
dispatcher, together with proofs of the specified properties.

JavaScript numbers are modelled by `ℚ` (the spec's properties are stated
up to floating-point tolerance; over `ℚ` they hold exactly), JS objects
used as string-keyed maps by association lists.
-/

namespace NetGraphModel

/-- Association-list dictionary keyed by strings, modelling a JS object
used as a map. -/
abbrev Dict (α : Type) : Type := List (String × α)

/-- Look a key up (JS `obj[k]`, `undefined` becoming `none`). -/
def dget {α : Type} : Dict α → String → Option α
  | [], _ => none
  | p :: rest, k => if p.1 = k then some p.2 else dget rest k

/-- Set a key to a value (overwriting any previous binding). -/
def dset {α : Type} (l : Dict α) (k : String) (v : α) : Dict α :=
  (k, v) :: l.filter (fun p => p.1 ≠ k)

/-- Delete a key (JS `delete obj[k]`). -/
def ddel {α : Type} (l : Dict α) (k : String) : Dict α :=
  l.filter (fun p => p.1 ≠ k)

/-- The keys of a dictionary (JS `Object.keys`). -/
def dkeys {α : Type} (l : Dict α) : List String := l.map Prod.fst

theorem dget_dset_self {α : Type} (l : Dict α) (k : String) (v : α) :
    dget (dset l k v) k = some v := by
  simp [dget, dset]

theorem dget_filter_ne {α : Type} (l : Dict α) (k k' : String) (h : k' ≠ k) :
    dget (l.filter (fun p => p.1 ≠ k)) k' = dget l k' := by
  induction l with
  | nil => rfl
  | cons p rest ih =>
    rw [List.filter_cons]
    by_cases hp : p.1 = k
    · have hpk' : p.1 ≠ k' := by rw [hp]; exact fun e => h e.symm
      rw [if_neg (by simp [hp]), ih]
      simp [dget, hpk']
    · rw [if_pos (by simp [hp])]
      simp only [dget]
      rw [ih]

theorem dget_dset_ne {α : Type} (l : Dict α) (k k' : String) (v : α)
    (h : k' ≠ k) : dget (dset l k v) k' = dget l k' := by
  have : k ≠ k' := fun e => h e.symm
  simp only [dset, dget, this, if_neg]
  exact dget_filter_ne l k k' h

theorem dget_ddel_self {α : Type} (l : Dict α) (k : String) :
    dget (ddel l k) k = none := by
  induction l with
  | nil => rfl
  | cons p rest ih =>
    rw [ddel, List.filter_cons]
    by_cases hp : p.1 = k
    · simpa [hp, ddel] using ih
    · simpa [hp, dget, ddel] using ih

theorem dget_ddel_ne {α : Type} (l : Dict α) (k k' : String) (h : k' ≠ k) :
    dget (ddel l k) k' = dget l k' := dget_filter_ne l k k' h

theorem mem_dkeys_dset {α : Type} (l : Dict α) (k u : String) (v : α) :
    u ∈ dkeys (dset l k v) ↔ u = k ∨ u ∈ dkeys l := by
  constructor
  · intro h
    simp only [dkeys, dset, List.map_cons, List.mem_cons, List.mem_map] at h
    rcases h with h | ⟨p, hp, hu⟩
    · exact Or.inl h
    · exact Or.inr (by
        simp only [dkeys, List.mem_map]
        exact ⟨p, (List.mem_filter.mp hp).1, hu⟩)
  · rintro (rfl | h)
    · simp [dkeys, dset]
    · by_cases hu : u = k
      · simp [dkeys, dset, hu]
      · simp only [dkeys, List.mem_map] at h
        obtain ⟨p, hp, hu'⟩ := h
        simp only [dkeys, dset, List.map_cons, List.mem_cons, List.mem_map]
        exact Or.inr ⟨p, List.mem_filter.mpr ⟨hp, by simp [hu' ▸ hu]⟩, hu'⟩

theorem nodup_dkeys_dset {α : Type} (l : Dict α) (k : String) (v : α)
    (h : (dkeys l).Nodup) : (dkeys (dset l k v)).Nodup := by
  simp only [dkeys, dset, List.map_cons, List.nodup_cons]
  refine ⟨?_, ?_⟩
  · intro hmem
    simp only [List.mem_map] at hmem
    obtain ⟨p, hp, hk⟩ := hmem
    exact absurd hk (by simpa using (List.mem_filter.mp hp).2)
  · exact h.sublist ((List.filter_sublist l).map Prod.fst)

/-- Modelled from the spec: a `NetGraphItem` (netgraph_item.ts is not in
src); one simulation object in one view, with uid, model-space position
and size, nesting depth, expanded flag, label and a minimap flag. -/
structure Item where
  uid : String
  x : ℚ
  y : ℚ
  width : ℚ
  height : ℚ
  depth : Nat
  expanded : Bool
  label : String
  minimap : Bool
deriving DecidableEq

/-- Modelled from the spec: a `NetGraphConnection` (netgraph_conn.ts is
not in src); one edge with uid, pre/post endpoint path descriptors
(chains of uids, outermost first), recurrent and removed flags, and a
minimap flag. -/
structure Conn where
  uid : String
  pres : List String
  posts : List String
  recurrent : Bool
  removed : Bool
  minimap : Bool
deriving DecidableEq

/-- A connection as seen by the pending-connection index
(`collapsed_conns`): JS stores object references, modelled by a numeric
identity plus the `removed` flag the index reads. -/
structure PConn where
  id : Nat
  removed : Bool
deriving DecidableEq

/-- Observable side effects of the NetGraph operations: DOM/viewport
updates, console warnings, calls into absent collaborator code, and
outbound websocket notifications. -/
inductive Effect where
  | warn (msg : String)
  | crash
  | updateFonts
  | redrawAll
  | redrawItem (uid : String)
  | redrawConn (uid : String)
  | setPre (c : Nat)
  | setPost (c : Nat)
  | redrawPConn (c : Nat)
  | viewportSetScale (v : ℚ)
  | viewportSetPosition (x y : ℚ)
  | viewboxUpdate
  | saveLayouts
  | evalJS (code : String)
  | componentUpdateLayout (uid : String)
  | componentRemove (uid : String)
  | notifyPan (x y : ℚ)
  | notifyZoom (scale x y : ℚ)
deriving DecidableEq

/-- Is the effect an outbound websocket notification (`this.notify`)? -/
def Effect.isOutbound : Effect → Bool
  | .notifyPan _ _ => true
  | .notifyZoom _ _ _ => true
  | _ => false

/-- The pending-connection index `collapsed_conns`: key = uid of a
not-yet-existing item, value = list of connections waiting for it. -/
abbrev CCIndex : Type := Dict (List PConn)

/-- The NetGraph view state: pan/zoom, viewport dimensions, the four
registries, minimap extent state and the pending-connection index. -/
structure NetGraph where
  offsetX : ℚ
  offsetY : ℚ
  scale : ℚ
  width : ℚ
  height : ℚ
  tool_height : ℚ
  mm_display : Bool
  mm_min_x : ℚ
  mm_max_x : ℚ
  mm_min_y : ℚ
  mm_max_y : ℚ
  mm_scale : ℚ
  mm_width : ℚ
  mm_height : ℚ
  svg_objects : Dict Item
  svg_conns : Dict Conn
  minimap_objects : Dict Item
  minimap_conns : Dict Conn
  collapsed_conns : CCIndex
deriving DecidableEq

/-- `get_scaled_width`: pixel width of the SVG times the scale factor. -/
def NetGraph.get_scaled_width (st : NetGraph) : ℚ := st.width * st.scale

/-- `get_scaled_height`: pixel height of the SVG times the scale factor. -/
def NetGraph.get_scaled_height (st : NetGraph) : ℚ := st.height * st.scale

/-- The `scale` property setter: an assignment equal to the current value
returns early; otherwise it stores the value, updates fonts, redraws, and
notifies the viewport singleton. -/
def NetGraph.set_scale_prop (st : NetGraph) (val : ℚ) : NetGraph × List Effect :=
  if val = st.scale then (st, [])
  else ({ st with scale := val },
        [Effect.updateFonts, Effect.redrawAll, Effect.viewportSetScale val])

/-- `set_offset`: pan the screen and redraw accordingly. -/
def NetGraph.set_offset (st : NetGraph) (x y : ℚ) : NetGraph × List Effect :=
  ({ st with offsetX := x, offsetY := y },
   [Effect.redrawAll, Effect.viewportSetPosition x y])

/-- `scaleMiniMapViewBox`: update the minimap view rectangle; a no-op
when the minimap is hidden. -/
def NetGraph.scaleMiniMapViewBox (st : NetGraph) : List Effect :=
  if st.mm_display then [Effect.viewboxUpdate] else []

/-- `register_conn`: register a connection with the uid of a target item
it is waiting for; a connection already present under that uid is not
added again. -/
def register_conn (cc : CCIndex) (conn : PConn) (target : String) : CCIndex :=
  match dget cc target with
  | none => dset cc target [conn]
  | some l => if conn ∈ l then cc else dset cc target (l ++ [conn])

/-- `detect_collapsed_conns`: pop every connection registered under `uid`
and, for each one whose `removed` flag is not set, re-run pre and post
endpoint resolution and redraw it. -/
def detect_collapsed_conns (cc : CCIndex) (uid : String) : CCIndex × List Effect :=
  match dget cc uid with
  | none => (cc, [])
  | some conns =>
      (ddel cc uid,
       conns.foldl
         (fun acc c =>
           if c.removed then acc
           else acc ++ [Effect.setPre c.id, Effect.setPost c.id, Effect.redrawPConn c.id])
         [])

/-- `NetGraph.detect_collapsed_conns` applied to the state's index. -/
def NetGraph.detect_collapsed_conns (st : NetGraph) (uid : String) : NetGraph × List Effect :=
  let r := NetGraphModel.detect_collapsed_conns st.collapsed_conns uid
  ({ st with collapsed_conns := r.1 }, r.2)

/-- A bounding box: min/max x and y. -/
structure Extent where
  minx : ℚ
  maxx : ℚ
  miny : ℚ
  maxy : ℚ
deriving DecidableEq

/-- Modelled from the spec: `NetGraphItem.getMinMaxXY` (netgraph_item.ts
is not in src); the geometric extent of one item around its centre. -/
def getMinMaxXY (it : Item) : Extent :=
  ⟨it.x - it.width, it.x + it.width, it.y - it.height, it.y + it.height⟩

/-- The extent-accumulation loop of `scaleMiniMap`: walk the items,
skipping anything with depth > 1; the first eligible item initializes the
running min/max bounds, later ones widen them. -/
def mmScan : List Item → Bool → Extent → Extent
  | [], _, e => e
  | it :: rest, first, e =>
    if it.depth > 1 then mmScan rest first e
    else
      let m := getMinMaxXY it
      if first then mmScan rest false m
      else
        mmScan rest false
          ⟨if e.minx > m.minx then m.minx else e.minx,
           if e.maxx < m.maxx then m.maxx else e.maxx,
           if e.miny > m.miny then m.miny else e.miny,
           if e.maxy < m.maxy then m.maxy else e.maxy⟩

/-- `scaleMiniMap`: recompute the minimap extent and scale from all main
items of depth ≤ 1, pad the box by 5% of the derived scale on each side,
recompute the scale against the padded box, then redraw and update the
minimap view box.  A no-op when the minimap is hidden or the item
registry is empty. -/
def NetGraph.scaleMiniMap (st : NetGraph) : NetGraph × List Effect :=
  if st.mm_display = false then (st, [])
  else if st.svg_objects = [] then (st, [])
  else
    let e := mmScan (st.svg_objects.map Prod.snd) true
      ⟨st.mm_min_x, st.mm_max_x, st.mm_min_y, st.mm_max_y⟩
    let sc := 1 / max (e.maxx - e.minx) (e.maxy - e.miny)
    let e2 : Extent := ⟨e.minx - sc * (5 / 100), e.maxx + sc * (5 / 100),
                        e.miny - sc * (5 / 100), e.maxy + sc * (5 / 100)⟩
    let sc2 := 1 / max (e2.maxx - e2.minx) (e2.maxy - e2.miny)
    ({ st with mm_min_x := e2.minx, mm_max_x := e2.maxx,
               mm_min_y := e2.miny, mm_max_y := e2.maxy, mm_scale := sc2 },
     [Effect.redrawAll, Effect.viewboxUpdate])

/-- Decoded fields of an inbound websocket message. -/
structure MsgData where
  type : String
  uid : String
  panx : ℚ
  pany : ℚ
  zoom : ℚ
  posx : ℚ
  posy : ℚ
  sizew : ℚ
  sizeh : ℚ
  name : String
  code : String
  pres : List String
  posts : List String
  notify_server : Bool
  parent : Option String
deriving DecidableEq

/-- Modelled from the spec: construction of a `NetGraphItem`
(netgraph_item.ts is not in src) from a create message: uid, position,
size; depth is the parent's depth plus one (top level depth 1);
networks start collapsed. -/
def mkItem (st : NetGraph) (data : MsgData) (mini : Bool) : Item :=
  { uid := data.uid, x := data.posx, y := data.posy,
    width := data.sizew, height := data.sizeh,
    depth := match data.parent with
      | none => 1
      | some p => match dget st.svg_objects p with
        | some par => par.depth + 1
        | none => 1,
    expanded := false, label := data.name, minimap := mini }

/-- Modelled from the spec: construction of a `NetGraphConnection`
(netgraph_conn.ts is not in src) from a `conn` message: uid and endpoint
path descriptors; endpoint resolution and resolver registration live in
the absent class and are modelled only through `register_conn` /
`detect_collapsed_conns`. -/
def mkConn (data : MsgData) (mini : Bool) : Conn :=
  { uid := data.uid, pres := data.pres, posts := data.posts,
    recurrent := decide (data.pres.head? = data.posts.head?),
    removed := false, minimap := mini }

/-- `create_object`: create the minimap twin and the main item under the
same uid, notify any waiting connections for that uid (once per twin),
then rescale the minimap. -/
def NetGraph.create_object (st : NetGraph) (data : MsgData) : NetGraph × List Effect :=
  let item_mini := mkItem st data true
  let st1 := { st with minimap_objects := dset st.minimap_objects data.uid item_mini }
  let item := mkItem st1 data false
  let st2 := { st1 with svg_objects := dset st1.svg_objects data.uid item }
  let r3 := st2.detect_collapsed_conns item.uid
  let r4 := r3.1.detect_collapsed_conns item_mini.uid
  let r5 := r4.1.scaleMiniMap
  (r5.1, r3.2 ++ r4.2 ++ r5.2)

/-- `create_connection`: create the minimap twin and the main connection
under the same uid. -/
def NetGraph.create_connection (st : NetGraph) (data : MsgData) : NetGraph × List Effect :=
  let conn_mini := mkConn data true
  let st1 := { st with minimap_conns := dset st.minimap_conns data.uid conn_mini }
  let conn := mkConn data false
  ({ st1 with svg_conns := dset st1.svg_conns data.uid conn }, [])

/-- The wheel-zoom update (constructor wheel handler): solve for the new
pan offset so that the model point under the cursor stays put when the
scale is multiplied by `z_scale`, then notify position, view box, redraw
and send one outbound `zoom` notification. -/
def NetGraph.wheel_zoom (st : NetGraph) (x y z_scale : ℚ) : NetGraph × List Effect :=
  let xx := x / st.scale - st.offsetX
  let yy := y / st.scale - st.offsetY
  let st1 := { st with offsetX := (st.offsetX + xx) / z_scale - xx,
                       offsetY := (st.offsetY + yy) / z_scale - yy }
  let (st2, es) := st1.set_scale_prop (z_scale * st.scale)
  (st2, [Effect.saveLayouts] ++ es
        ++ [Effect.viewportSetPosition st1.offsetX st1.offsetY]
        ++ st2.scaleMiniMapViewBox
        ++ [Effect.redrawAll, Effect.notifyZoom st2.scale st1.offsetX st1.offsetY])

/-- One `onmove` tick of the background pan drag: shift the pan offset by
the pixel delta normalized by the scaled viewport dimensions, redraw, and
update the viewport position and minimap view box; nothing is sent to
the server. -/
def NetGraph.drag_onmove (st : NetGraph) (dx dy : ℚ) : NetGraph × List Effect :=
  let st1 := { st with offsetX := st.offsetX + dx / st.get_scaled_width,
                       offsetY := st.offsetY + dy / st.get_scaled_height }
  (st1, [Effect.redrawAll, Effect.viewportSetPosition st1.offsetX st1.offsetY]
        ++ st1.scaleMiniMapViewBox)

/-- The `onend` handler of the background pan drag: let the server know
what happened. -/
def NetGraph.drag_onend (st : NetGraph) : NetGraph × List Effect :=
  (st, [Effect.notifyPan st.offsetX st.offsetY])

/-- One accumulation step of a pan drag: apply a move tick and collect
its effects. -/
def drag_step (a : NetGraph × List Effect) (t : ℚ × ℚ) : NetGraph × List Effect :=
  let r := a.1.drag_onmove t.1 t.2
  (r.1, a.2 ++ r.2)

/-- A whole pan-drag gesture: a sequence of move ticks followed by the
drag-end notification. -/
def NetGraph.run_drag (st : NetGraph) (ticks : List (ℚ × ℚ)) : NetGraph × List Effect :=
  let moved := ticks.foldl drag_step (st, [])
  let ended := moved.1.drag_onend
  (ended.1, moved.2 ++ ended.2)

/-- `on_message`: dispatch one decoded inbound websocket message on its
`type` tag (branch order as in the source); branches that look up a uid
the registry does not hold dereference `undefined` and are modelled as a
crash effect with the state unchanged up to that point.  Item-level
`expand`/`collapse`/`set_label`/`remove` bodies live in the absent
netgraph_item.ts / netgraph_conn.ts and are modelled from the spec:
expand/collapse toggle the expanded flag without re-notifying the
server; rename updates the label; removing an item deletes both twins,
removing a connection marks both twins removed. -/
def NetGraph.on_message (st : NetGraph) (data : MsgData) : NetGraph × List Effect :=
  if data.type = "net" then st.create_object data
  else if data.type = "ens" then st.create_object data
  else if data.type = "node" then st.create_object data
  else if data.type = "conn" then st.create_connection data
  else if data.type = "pan" then st.set_offset data.panx data.pany
  else if data.type = "zoom" then st.set_scale_prop data.zoom
  else if data.type = "expand" then
    match dget st.svg_objects data.uid with
    | none => (st, [Effect.crash])
    | some it =>
        ({ st with svg_objects := dset st.svg_objects data.uid { it with expanded := true } }, [])
  else if data.type = "collapse" then
    match dget st.svg_objects data.uid with
    | none => (st, [Effect.crash])
    | some it =>
        ({ st with svg_objects := dset st.svg_objects data.uid { it with expanded := false } }, [])
  else if data.type = "pos_size" then
    match dget st.svg_objects data.uid with
    | none => (st, [Effect.crash])
    | some it =>
        let it' := { it with x := data.posx, y := data.posy,
                             width := data.sizew, height := data.sizeh }
        let st1 := { st with svg_objects := dset st.svg_objects data.uid it' }
        let (st2, es) := st1.scaleMiniMap
        (st2, [Effect.redrawItem data.uid] ++ es)
  else if data.type = "config" then
    (st, [Effect.componentUpdateLayout data.uid])
  else if data.type = "js" then
    (st, [Effect.evalJS data.code])
  else if data.type = "rename" then
    match dget st.svg_objects data.uid with
    | none => (st, [Effect.crash])
    | some it =>
        ({ st with svg_objects := dset st.svg_objects data.uid { it with label := data.name } }, [])
  else if data.type = "remove" then
    match dget st.svg_objects data.uid with
    | some _ =>
        ({ st with svg_objects := ddel st.svg_objects data.uid,
                   minimap_objects := ddel st.minimap_objects data.uid }, [])
    | none =>
        match dget st.svg_conns data.uid with
        | none => (st, [Effect.crash])
        | some c =>
            ({ st with
                svg_conns := dset st.svg_conns data.uid { c with removed := true },
                minimap_conns :=
                  match dget st.minimap_conns data.uid with
                  | some cm => dset st.minimap_conns data.uid { cm with removed := true }
                  | none => st.minimap_conns }, [])
  else if data.type = "reconnect" then
    match dget st.svg_conns data.uid with
    | none => (st, [Effect.crash])
    | some c =>
        let c' := { c with pres := data.pres, posts := data.posts,
                           recurrent := decide (data.pres.head? = data.posts.head?) }
        ({ st with svg_conns := dset st.svg_conns data.uid c' },
         [Effect.redrawConn data.uid])
  else if data.type = "delete_graph" then
    (st, [Effect.componentRemove data.uid])
  else
    (st, [Effect.warn "invalid message"])

/-- The state the NetGraph constructor builds: zero pan offset, unit
scale, empty registries, the initial minimap extent and scale, and the
minimap hidden (`create_minimap` sets `mm_display` and `toggleMiniMap`
immediately flips it off). -/
def initNG (w h : ℚ) : NetGraph :=
  { offsetX := 0, offsetY := 0, scale := 1, width := w, height := h,
    tool_height := 0, mm_display := false,
    mm_min_x := 0, mm_max_x := 0, mm_min_y := 0, mm_max_y := 0,
    mm_scale := 1 / 10, mm_width := 0, mm_height := 0,
    svg_objects := [], svg_conns := [], minimap_objects := [],
    minimap_conns := [], collapsed_conns := [] }

theorem set_scale_prop_fst_scale (st : NetGraph) (v : ℚ) :
    ((st.set_scale_prop v).1).scale = v := by
  unfold NetGraph.set_scale_prop
  split
  · next h => simpa using h.symm
  · rfl

theorem set_scale_prop_fst_offsetX (st : NetGraph) (v : ℚ) :
    ((st.set_scale_prop v).1).offsetX = st.offsetX := by
  unfold NetGraph.set_scale_prop
  split <;> rfl

theorem set_scale_prop_fst_offsetY (st : NetGraph) (v : ℚ) :
    ((st.set_scale_prop v).1).offsetY = st.offsetY := by
  unfold NetGraph.set_scale_prop
  split <;> rfl

theorem wheel_zoom_fst_offsetX (st : NetGraph) (x y z : ℚ) :
    ((st.wheel_zoom x y z).1).offsetX
      = (st.offsetX + (x / st.scale - st.offsetX)) / z - (x / st.scale - st.offsetX) := by
  unfold NetGraph.wheel_zoom
  exact set_scale_prop_fst_offsetX _ _

theorem wheel_zoom_fst_offsetY (st : NetGraph) (x y z : ℚ) :
    ((st.wheel_zoom x y z).1).offsetY
      = (st.offsetY + (y / st.scale - st.offsetY)) / z - (y / st.scale - st.offsetY) := by
  unfold NetGraph.wheel_zoom
  exact set_scale_prop_fst_offsetY _ _

theorem wheel_zoom_fst_scale (st : NetGraph) (x y z : ℚ) :
    ((st.wheel_zoom x y z).1).scale = z * st.scale := by
  unfold NetGraph.wheel_zoom
  exact set_scale_prop_fst_scale _ _

/-- C2: zooming by a factor `z > 0` toward a cursor point and then by
`1 / z` toward the same point restores the pan offset and the scale, and
a single wheel-zoom application leaves the model-space point under the
cursor unchanged. -/
theorem zoom_toward_cursor_inverse (st : NetGraph) (x y z : ℚ)
    (hz : 0 < z) (hs : st.scale ≠ 0) :
    (((st.wheel_zoom x y z).1.wheel_zoom x y (1 / z)).1).offsetX = st.offsetX ∧
    (((st.wheel_zoom x y z).1.wheel_zoom x y (1 / z)).1).offsetY = st.offsetY ∧
    (((st.wheel_zoom x y z).1.wheel_zoom x y (1 / z)).1).scale = st.scale ∧
    x / ((st.wheel_zoom x y z).1).scale - ((st.wheel_zoom x y z).1).offsetX
      = x / st.scale - st.offsetX ∧
    y / ((st.wheel_zoom x y z).1).scale - ((st.wheel_zoom x y z).1).offsetY
      = y / st.scale - st.offsetY := by
  have hz' : z ≠ 0 := ne_of_gt hz
  have h1x := wheel_zoom_fst_offsetX st x y z
  have h1y := wheel_zoom_fst_offsetY st x y z
  have h1s := wheel_zoom_fst_scale st x y z
  have h2x := wheel_zoom_fst_offsetX (st.wheel_zoom x y z).1 x y (1 / z)
  have h2y := wheel_zoom_fst_offsetY (st.wheel_zoom x y z).1 x y (1 / z)
  have h2s := wheel_zoom_fst_scale (st.wheel_zoom x y z).1 x y (1 / z)
  refine ⟨?_, ?_, ?_, ?_, ?_⟩
  · rw [h2x, h1s, h1x]
    field_simp
    ring
  · rw [h2y, h1s, h1y]
    field_simp
    ring
  · rw [h2s, h1s]
    field_simp
  · rw [h1s, h1x]
    field_simp
    ring
  · rw [h1s, h1y]
    field_simp
    ring

/-- Witness for C2 at a concrete state and zoom factor. -/
theorem zoom_toward_cursor_inverse_witness :
    (0 : ℚ) < 2 ∧ (initNG 500 400).scale ≠ 0 ∧
    ((((initNG 500 400).wheel_zoom (1 / 2) (1 / 3) 2).1.wheel_zoom (1 / 2) (1 / 3) (1 / 2)).1).offsetX
      = (initNG 500 400).offsetX ∧
    ((((initNG 500 400).wheel_zoom (1 / 2) (1 / 3) 2).1.wheel_zoom (1 / 2) (1 / 3) (1 / 2)).1).offsetY
      = (initNG 500 400).offsetY ∧
    ((((initNG 500 400).wheel_zoom (1 / 2) (1 / 3) 2).1.wheel_zoom (1 / 2) (1 / 3) (1 / 2)).1).scale
      = (initNG 500 400).scale ∧
    (1 / 2 : ℚ) / (((initNG 500 400).wheel_zoom (1 / 2) (1 / 3) 2).1).scale
        - (((initNG 500 400).wheel_zoom (1 / 2) (1 / 3) 2).1).offsetX
      = (1 / 2 : ℚ) / (initNG 500 400).scale - (initNG 500 400).offsetX ∧
    (1 / 3 : ℚ) / (((initNG 500 400).wheel_zoom (1 / 2) (1 / 3) 2).1).scale
        - (((initNG 500 400).wheel_zoom (1 / 2) (1 / 3) 2).1).offsetY
      = (1 / 3 : ℚ) / (initNG 500 400).scale - (initNG 500 400).offsetY := by
  refine ⟨by norm_num, by norm_num [initNG], ?_⟩
  exact zoom_toward_cursor_inverse (initNG 500 400) (1 / 2) (1 / 3) 2
    (by norm_num) (by norm_num [initNG])

/-- C10: assigning the scale property its current value is a complete
no-op — the setter returns early with the state unchanged and no side
effects; assigning a different value stores it and fires the font
update, the redraw and the viewport scale notification. -/
theorem scale_setter_noop (st : NetGraph) (v : ℚ) (h : v = st.scale) :
    st.set_scale_prop v = (st, []) ∧
    (∀ w : ℚ, w ≠ st.scale →
      st.set_scale_prop w
        = ({ st with scale := w },
           [Effect.updateFonts, Effect.redrawAll, Effect.viewportSetScale w])) := by
  constructor
  · simp [NetGraph.set_scale_prop, h]
  · intro w hw
    simp [NetGraph.set_scale_prop, hw]

/-- Witness for C10 at a concrete state. -/
theorem scale_setter_noop_witness :
    (1 : ℚ) = (initNG 500 400).scale ∧
    ((initNG 500 400).set_scale_prop 1 = (initNG 500 400, []) ∧
     (∀ w : ℚ, w ≠ (initNG 500 400).scale →
        (initNG 500 400).set_scale_prop w
          = ({ initNG 500 400 with scale := w },
             [Effect.updateFonts, Effect.redrawAll, Effect.viewportSetScale w]))) :=
  ⟨by norm_num [initNG],
   scale_setter_noop (initNG 500 400) 1 (by norm_num [initNG])⟩

theorem foldl_conn_effects (conns : List PConn) (acc : List Effect) :
    conns.foldl
      (fun acc c =>
        if c.removed then acc
        else acc ++ [Effect.setPre c.id, Effect.setPost c.id, Effect.redrawPConn c.id])
      acc
    = acc ++ conns.flatMap
        (fun c =>
          if c.removed then []
          else [Effect.setPre c.id, Effect.setPost c.id, Effect.redrawPConn c.id]) := by
  induction conns generalizing acc with
  | nil => simp
  | cons c rest ih =>
    simp only [List.foldl_cons, List.flatMap_cons]
    by_cases hc : c.removed <;> simp [hc, ih]

/-- C3: `detect_collapsed_conns uid` removes the whole entry for `uid`
from the pending-connection index, leaves every other key unchanged, and
emits the pre/post re-resolution and redraw exactly for the registered
connections whose removed flag is not set. -/
theorem detect_collapsed_conns_spec (cc : CCIndex) (uid : String) :
    (∀ k, dget (detect_collapsed_conns cc uid).1 k
        = if k = uid then none else dget cc k) ∧
    (detect_collapsed_conns cc uid).2
      = ((dget cc uid).getD []).flatMap
          (fun c =>
            if c.removed then []
            else [Effect.setPre c.id, Effect.setPost c.id, Effect.redrawPConn c.id]) := by
  unfold detect_collapsed_conns
  cases h : dget cc uid with
  | none =>
    refine ⟨?_, by simp⟩
    intro k
    by_cases hk : k = uid
    · simp [hk, h]
    · simp [hk]
  | some conns =>
    refine ⟨?_, ?_⟩
    · intro k
      by_cases hk : k = uid
      · simp [hk, dget_ddel_self]
      · simp [hk, dget_ddel_ne _ _ _ hk]
    · simp [foldl_conn_effects]

theorem register_conn_nodup (cc : CCIndex) (c : PConn) (t : String)
    (h : ∀ k, ((dget cc k).getD []).Nodup) :
    ∀ k, ((dget (register_conn cc c t) k).getD []).Nodup := by
  intro k
  unfold register_conn
  cases hl : dget cc t with
  | none =>
    by_cases hk : k = t
    · subst hk
      simp [dget_dset_self]
    · rw [dget_dset_ne _ _ _ _ hk]
      exact h k
  | some l =>
    by_cases hc : c ∈ l
    · simpa [hc] using h k
    · simp only [hc, if_false]
      by_cases hk : k = t
      · subst hk
        rw [dget_dset_self]
        have hndl : l.Nodup := by
          have := h k
          rw [hl] at this
          simpa using this
        simp [List.nodup_append, hndl, hc]
      · rw [dget_dset_ne _ _ _ _ hk]
        exact h k

theorem foldl_register_nodup (calls : List (PConn × String)) (cc : CCIndex)
    (h : ∀ k, ((dget cc k).getD []).Nodup) :
    ∀ k, ((dget (calls.foldl (fun acc p => register_conn acc p.1 p.2) cc) k).getD []).Nodup := by
  induction calls generalizing cc with
  | nil => exact h
  | cons p rest ih => exact ih _ (register_conn_nodup _ _ _ h)

/-- C4: registering a connection already registered under the same
blocking uid leaves the index unchanged, and after any sequence of
registrations from the empty index each (connection, blocking-uid) pair
has at most one entry. -/
theorem register_conn_at_most_once (calls : List (PConn × String)) (cc : CCIndex)
    (c : PConn) (t : String) (h : c ∈ (dget cc t).getD []) :
    register_conn cc c t = cc ∧
    ((dget (calls.foldl (fun acc p => register_conn acc p.1 p.2) ([] : CCIndex)) t).getD []).count c
      ≤ 1 := by
  constructor
  · unfold register_conn
    cases hl : dget cc t with
    | none =>
      rw [hl] at h
      simp at h
    | some l =>
      rw [hl] at h
      simp only [Option.getD_some] at h
      simp [h]
  · have hn := foldl_register_nodup calls []
      (by intro k; simp [dget])
    exact List.nodup_iff_count_le_one.mp (hn t) c

/-- Witness for C4 at a concrete index and call sequence. -/
theorem register_conn_at_most_once_witness :
    (⟨0, false⟩ : PConn) ∈ (dget [("t", [(⟨0, false⟩ : PConn)])] "t").getD [] ∧
    (register_conn [("t", [(⟨0, false⟩ : PConn)])] ⟨0, false⟩ "t"
        = [("t", [(⟨0, false⟩ : PConn)])] ∧
     ((dget ([((⟨0, false⟩ : PConn), "t"), (⟨0, false⟩, "t")].foldl
          (fun acc p => register_conn acc p.1 p.2) ([] : CCIndex)) "t").getD []).count
        ⟨0, false⟩ ≤ 1) :=
  ⟨by decide,
   register_conn_at_most_once [(⟨0, false⟩, "t"), (⟨0, false⟩, "t")]
     [("t", [⟨0, false⟩])] ⟨0, false⟩ "t" (by decide)⟩

theorem drag_onmove_no_outbound (st : NetGraph) (dx dy : ℚ) :
    ((st.drag_onmove dx dy).2).filter (fun e => e.isOutbound) = [] := by
  unfold NetGraph.drag_onmove NetGraph.scaleMiniMapViewBox
  by_cases h : st.mm_display <;> simp [h, Effect.isOutbound]

theorem drag_foldl_width (ticks : List (ℚ × ℚ)) (st : NetGraph) (acc : List Effect) :
    ((ticks.foldl drag_step (st, acc)).1).width = st.width := by
  induction ticks generalizing st acc with
  | nil => rfl
  | cons t ts ih => exact ih _ _

theorem drag_foldl_height (ticks : List (ℚ × ℚ)) (st : NetGraph) (acc : List Effect) :
    ((ticks.foldl drag_step (st, acc)).1).height = st.height := by
  induction ticks generalizing st acc with
  | nil => rfl
  | cons t ts ih => exact ih _ _

theorem drag_foldl_scale (ticks : List (ℚ × ℚ)) (st : NetGraph) (acc : List Effect) :
    ((ticks.foldl drag_step (st, acc)).1).scale = st.scale := by
  induction ticks generalizing st acc with
  | nil => rfl
  | cons t ts ih => exact ih _ _

theorem drag_foldl_offsetX (ticks : List (ℚ × ℚ)) (st : NetGraph) (acc : List Effect) :
    ((ticks.foldl drag_step (st, acc)).1).offsetX
      = st.offsetX + (ticks.map (fun t => t.1 / (st.width * st.scale))).sum := by
  induction ticks generalizing st acc with
  | nil => simp
  | cons t ts ih =>
    rw [List.foldl_cons]
    rw [show ts.foldl drag_step (drag_step (st, acc) t)
          = ts.foldl drag_step
              (({ st with offsetX := st.offsetX + t.1 / st.get_scaled_width,
                          offsetY := st.offsetY + t.2 / st.get_scaled_height }),
               acc ++ (st.drag_onmove t.1 t.2).2) from rfl]
    rw [ih]
    simp [NetGraph.get_scaled_width, add_assoc]

theorem drag_foldl_offsetY (ticks : List (ℚ × ℚ)) (st : NetGraph) (acc : List Effect) :
    ((ticks.foldl drag_step (st, acc)).1).offsetY
      = st.offsetY + (ticks.map (fun t => t.2 / (st.height * st.scale))).sum := by
  induction ticks generalizing st acc with
  | nil => simp
  | cons t ts ih =>
    rw [List.foldl_cons]
    rw [show ts.foldl drag_step (drag_step (st, acc) t)
          = ts.foldl drag_step
              (({ st with offsetX := st.offsetX + t.1 / st.get_scaled_width,
                          offsetY := st.offsetY + t.2 / st.get_scaled_height }),
               acc ++ (st.drag_onmove t.1 t.2).2) from rfl]
    rw [ih]
    simp [NetGraph.get_scaled_height, add_assoc]

theorem drag_foldl_filter (ticks : List (ℚ × ℚ)) (st : NetGraph) (acc : List Effect) :
    ((ticks.foldl drag_step (st, acc)).2).filter (fun e => e.isOutbound)
      = acc.filter (fun e => e.isOutbound) := by
  induction ticks generalizing st acc with
  | nil => rfl
  | cons t ts ih =>
    rw [List.foldl_cons]
    rw [show drag_step (st, acc) t
          = ((st.drag_onmove t.1 t.2).1, acc ++ (st.drag_onmove t.1 t.2).2) from rfl]
    rw [ih]
    rw [List.filter_append, drag_onmove_no_outbound, List.append_nil]

/-- C5: over a whole pan drag, each move tick adds exactly
`dx / (width·scale)` and `dy / (height·scale)` to the pan offsets (so the
final offsets are the initial ones plus the per-tick sums), the move
ticks send nothing outbound, and exactly one outbound pan notification
carrying the final offsets is sent at drag end. -/
theorem drag_pan_spec (st : NetGraph) (ticks : List (ℚ × ℚ)) :
    (∀ dx dy : ℚ,
      ((st.drag_onmove dx dy).1).offsetX = st.offsetX + dx / (st.width * st.scale) ∧
      ((st.drag_onmove dx dy).1).offsetY = st.offsetY + dy / (st.height * st.scale)) ∧
    ((st.run_drag ticks).1).offsetX
      = st.offsetX + (ticks.map (fun t => t.1 / (st.width * st.scale))).sum ∧
    ((st.run_drag ticks).1).offsetY
      = st.offsetY + (ticks.map (fun t => t.2 / (st.height * st.scale))).sum ∧
    ((st.run_drag ticks).2).filter (fun e => e.isOutbound)
      = [Effect.notifyPan ((st.run_drag ticks).1).offsetX ((st.run_drag ticks).1).offsetY] := by
  refine ⟨fun dx dy => ⟨rfl, rfl⟩, ?_, ?_, ?_⟩
  · exact drag_foldl_offsetX ticks st []
  · exact drag_foldl_offsetY ticks st []
  · show ((ticks.foldl drag_step (st, [])).2
        ++ [Effect.notifyPan _ _]).filter (fun e => e.isOutbound) = _
    rw [List.filter_append, drag_foldl_filter]
    simp [Effect.isOutbound, NetGraph.run_drag, NetGraph.drag_onend]

/-- C7: when the main item registry is empty, `scaleMiniMap` is a benign
no-op: the tracked extent and `mm_scale` keep their prior values and no
redraw or view-box update happens. -/
theorem scaleMiniMap_empty_noop (st : NetGraph) (h : st.svg_objects = []) :
    st.scaleMiniMap = (st, []) := by
  unfold NetGraph.scaleMiniMap
  by_cases hd : st.mm_display = false
  · simp [hd]
  · simp [hd, h]

/-- Witness for C7: an empty registry with the minimap shown. -/
theorem scaleMiniMap_empty_noop_witness :
    ({ initNG 500 400 with mm_display := true } : NetGraph).svg_objects = [] ∧
    ({ initNG 500 400 with mm_display := true } : NetGraph).scaleMiniMap
      = ({ initNG 500 400 with mm_display := true }, []) :=
  ⟨rfl, scaleMiniMap_empty_noop { initNG 500 400 with mm_display := true } rfl⟩

/-- Widen a running bounding box by one item extent. -/
def extUnion (e m : Extent) : Extent :=
  ⟨min e.minx m.minx, max e.maxx m.maxx, min e.miny m.miny, max e.maxy m.maxy⟩

/-- Claim-side extent: min/max x and y over the extents of a nonempty
list of items, the first item seeding the fold. -/
def specExtent (it0 : Item) (rest : List Item) : Extent :=
  rest.foldl (fun e it => extUnion e (getMinMaxXY it)) (getMinMaxXY it0)

/-- Claim-side two-pass minimap computation: derive the scale from the
raw extent as 1 / max(width, height), expand each of the four bounds
outward by 5% (0.05) of that scale, then recompute the scale against the
padded box. -/
def specMiniMap (it0 : Item) (rest : List Item) : Extent × ℚ :=
  let e := specExtent it0 rest
  let sc := 1 / max (e.maxx - e.minx) (e.maxy - e.miny)
  let e2 : Extent := ⟨e.minx - sc * (5 / 100), e.maxx + sc * (5 / 100),
                      e.miny - sc * (5 / 100), e.maxy + sc * (5 / 100)⟩
  (e2, 1 / max (e2.maxx - e2.minx) (e2.maxy - e2.miny))

theorem if_gt_eq_min (a b : ℚ) : (if a > b then b else a) = min a b := by
  split_ifs with h
  · exact (min_eq_right h.le).symm
  · exact (min_eq_left (not_lt.mp h)).symm

theorem if_lt_eq_max (a b : ℚ) : (if a < b then b else a) = max a b := by
  split_ifs with h
  · exact (max_eq_right h.le).symm
  · exact (max_eq_left (not_lt.mp h)).symm

theorem mmScan_cons (it : Item) (rest : List Item) (first : Bool) (e : Extent) :
    mmScan (it :: rest) first e
      = if it.depth > 1 then mmScan rest first e
        else if first then mmScan rest false (getMinMaxXY it)
        else mmScan rest false
          ⟨if e.minx > (getMinMaxXY it).minx then (getMinMaxXY it).minx else e.minx,
           if e.maxx < (getMinMaxXY it).maxx then (getMinMaxXY it).maxx else e.maxx,
           if e.miny > (getMinMaxXY it).miny then (getMinMaxXY it).miny else e.miny,
           if e.maxy < (getMinMaxXY it).maxy then (getMinMaxXY it).maxy else e.maxy⟩ := rfl

theorem mmScan_false_eq_foldl (l : List Item) (e : Extent) :
    mmScan l false e
      = (l.filter (fun it => it.depth ≤ 1)).foldl
          (fun e it => extUnion e (getMinMaxXY it)) e := by
  induction l generalizing e with
  | nil => rfl
  | cons it rest ih =>
    rw [List.filter_cons, mmScan_cons]
    by_cases hd : it.depth > 1
    · have hn : ¬ it.depth ≤ 1 := by omega
      rw [if_pos hd, if_neg (by simp [hn])]
      exact ih e
    · have hle : it.depth ≤ 1 := by omega
      rw [if_neg hd, if_neg (by simp)]
      rw [show (⟨if e.minx > (getMinMaxXY it).minx then (getMinMaxXY it).minx else e.minx,
               if e.maxx < (getMinMaxXY it).maxx then (getMinMaxXY it).maxx else e.maxx,
               if e.miny > (getMinMaxXY it).miny then (getMinMaxXY it).miny else e.miny,
               if e.maxy < (getMinMaxXY it).maxy then (getMinMaxXY it).maxy else e.maxy⟩ : Extent)
            = extUnion e (getMinMaxXY it) by
        rw [extUnion, if_gt_eq_min, if_lt_eq_max, if_gt_eq_min, if_lt_eq_max]]
      rw [if_pos (by simp [hle]), List.foldl_cons]
      exact ih _

theorem mmScan_true_eq_specExtent (l : List Item) (e : Extent) (it0 : Item)
    (rest : List Item) (hf : l.filter (fun it => it.depth ≤ 1) = it0 :: rest) :
    mmScan l true e = specExtent it0 rest := by
  induction l generalizing e with
  | nil => simp at hf
  | cons it restl ih =>
    rw [List.filter_cons] at hf
    rw [mmScan_cons]
    by_cases hd : it.depth > 1
    · have hn : ¬ it.depth ≤ 1 := by omega
      rw [if_neg (by simp [hn])] at hf
      rw [if_pos hd]
      exact ih e hf
    · have hle : it.depth ≤ 1 := by omega
      rw [if_pos (by simp [hle]), List.cons.injEq] at hf
      obtain ⟨rfl, rfl⟩ := hf
      rw [if_neg hd, if_pos rfl, mmScan_false_eq_foldl]
      rfl

/-- C6: with the minimap shown and at least one depth ≤ 1 item in the
registry, `scaleMiniMap` computes the min/max extent over exactly the
depth ≤ 1 items (deeper items do not influence it), derives the scale
from that box, pads all four bounds outward by 5% of the scale,
recomputes the scale from the padded box (two passes), and redraws. -/
theorem scaleMiniMap_two_pass (st : NetGraph) (it0 : Item) (rest : List Item)
    (hd : st.mm_display = true)
    (hf : (st.svg_objects.map Prod.snd).filter (fun it => it.depth ≤ 1) = it0 :: rest) :
    st.scaleMiniMap
      = ({ st with mm_min_x := (specMiniMap it0 rest).1.minx,
                   mm_max_x := (specMiniMap it0 rest).1.maxx,
                   mm_min_y := (specMiniMap it0 rest).1.miny,
                   mm_max_y := (specMiniMap it0 rest).1.maxy,
                   mm_scale := (specMiniMap it0 rest).2 },
         [Effect.redrawAll, Effect.viewboxUpdate]) := by
  have hne : st.svg_objects ≠ [] := by
    intro h
    rw [h] at hf
    simp at hf
  unfold NetGraph.scaleMiniMap
  rw [if_neg (by simp [hd]), if_neg hne]
  rw [mmScan_true_eq_specExtent _ _ _ _ hf]
  rfl

/-- A one-item state used to witness the minimap extent computation. -/
def mmWitnessItem : Item :=
  ⟨"a", 0, 0, 1 / 10, 1 / 5, 1, false, "A", false⟩

/-- A NetGraph state holding `mmWitnessItem` with the minimap shown. -/
def mmWitnessNG : NetGraph :=
  { initNG 500 400 with mm_display := true,
                        svg_objects := [("a", mmWitnessItem)] }

/-- Witness for C6 at a concrete one-item state. -/
theorem scaleMiniMap_two_pass_witness :
    mmWitnessNG.mm_display = true ∧
    (mmWitnessNG.svg_objects.map Prod.snd).filter (fun it => it.depth ≤ 1)
      = mmWitnessItem :: [] ∧
    mmWitnessNG.scaleMiniMap
      = ({ mmWitnessNG with
            mm_min_x := (specMiniMap mmWitnessItem []).1.minx,
            mm_max_x := (specMiniMap mmWitnessItem []).1.maxx,
            mm_min_y := (specMiniMap mmWitnessItem []).1.miny,
            mm_max_y := (specMiniMap mmWitnessItem []).1.maxy,
            mm_scale := (specMiniMap mmWitnessItem []).2 },
         [Effect.redrawAll, Effect.viewboxUpdate]) :=
  ⟨rfl, rfl, scaleMiniMap_two_pass mmWitnessNG mmWitnessItem [] rfl rfl⟩

theorem scaleMiniMap_registries (st : NetGraph) :
    ((st.scaleMiniMap).1).svg_objects = st.svg_objects ∧
    ((st.scaleMiniMap).1).minimap_objects = st.minimap_objects ∧
    ((st.scaleMiniMap).1).svg_conns = st.svg_conns ∧
    ((st.scaleMiniMap).1).minimap_conns = st.minimap_conns := by
  unfold NetGraph.scaleMiniMap
  split_ifs <;> exact ⟨rfl, rfl, rfl, rfl⟩

theorem detectNG_registries (st : NetGraph) (u : String) :
    ((st.detect_collapsed_conns u).1).svg_objects = st.svg_objects ∧
    ((st.detect_collapsed_conns u).1).minimap_objects = st.minimap_objects ∧
    ((st.detect_collapsed_conns u).1).svg_conns = st.svg_conns ∧
    ((st.detect_collapsed_conns u).1).minimap_conns = st.minimap_conns :=
  ⟨rfl, rfl, rfl, rfl⟩

theorem create_object_shape (st : NetGraph) (d : MsgData) :
    ∃ it itm : Item,
      ((st.create_object d).1).svg_objects = dset st.svg_objects d.uid it ∧
      ((st.create_object d).1).minimap_objects = dset st.minimap_objects d.uid itm ∧
      ((st.create_object d).1).svg_conns = st.svg_conns ∧
      ((st.create_object d).1).minimap_conns = st.minimap_conns := by
  refine ⟨mkItem { st with minimap_objects := dset st.minimap_objects d.uid (mkItem st d true) }
            d false, mkItem st d true, ?_, ?_, ?_, ?_⟩ <;>
    simp only [NetGraph.create_object,
      (scaleMiniMap_registries _).1, (scaleMiniMap_registries _).2.1,
      (scaleMiniMap_registries _).2.2.1, (scaleMiniMap_registries _).2.2.2,
      (detectNG_registries _ _).1, (detectNG_registries _ _).2.1,
      (detectNG_registries _ _).2.2.1, (detectNG_registries _ _).2.2.2]

theorem create_connection_shape (st : NetGraph) (d : MsgData) :
    ((st.create_connection d).1).svg_conns = dset st.svg_conns d.uid (mkConn d false) ∧
    ((st.create_connection d).1).minimap_conns = dset st.minimap_conns d.uid (mkConn d true) ∧
    ((st.create_connection d).1).svg_objects = st.svg_objects ∧
    ((st.create_connection d).1).minimap_objects = st.minimap_objects :=
  ⟨rfl, rfl, rfl, rfl⟩

/-- A create operation arriving from the server: either an item-creating
`net`/`ens`/`node` message or a connection-creating `conn` message. -/
inductive CreateOp where
  | obj (data : MsgData)
  | conn (data : MsgData)

/-- Apply one create operation to the state. -/
def applyCreate (st : NetGraph) : CreateOp → NetGraph
  | .obj d => (st.create_object d).1
  | .conn d => (st.create_connection d).1

/-- Apply a sequence of create operations to the state. -/
def applyCreates (st : NetGraph) (ops : List CreateOp) : NetGraph :=
  ops.foldl applyCreate st

/-- The twin invariant: the main and minimap item registries hold
exactly the same uids, each exactly once, and likewise the two
connection registries. -/
def TwinInv (st : NetGraph) : Prop :=
  (∀ u, u ∈ dkeys st.svg_objects ↔ u ∈ dkeys st.minimap_objects) ∧
  (∀ u, u ∈ dkeys st.svg_conns ↔ u ∈ dkeys st.minimap_conns) ∧
  (dkeys st.svg_objects).Nodup ∧ (dkeys st.minimap_objects).Nodup ∧
  (dkeys st.svg_conns).Nodup ∧ (dkeys st.minimap_conns).Nodup

theorem applyCreate_twin (st : NetGraph) (op : CreateOp) (h : TwinInv st) :
    TwinInv (applyCreate st op) := by
  obtain ⟨ho, hc, n1, n2, n3, n4⟩ := h
  cases op with
  | obj d =>
    obtain ⟨it, itm, h1, h2, h3, h4⟩ := create_object_shape st d
    show TwinInv (st.create_object d).1
    refine ⟨?_, ?_, ?_, ?_, ?_, ?_⟩
    · intro u
      rw [h1, h2, mem_dkeys_dset, mem_dkeys_dset]
      exact or_congr Iff.rfl (ho u)
    · intro u
      rw [h3, h4]
      exact hc u
    · rw [h1]; exact nodup_dkeys_dset _ _ _ n1
    · rw [h2]; exact nodup_dkeys_dset _ _ _ n2
    · rw [h3]; exact n3
    · rw [h4]; exact n4
  | conn d =>
    obtain ⟨h1, h2, h3, h4⟩ := create_connection_shape st d
    show TwinInv (st.create_connection d).1
    refine ⟨?_, ?_, ?_, ?_, ?_, ?_⟩
    · intro u
      rw [h3, h4]
      exact ho u
    · intro u
      rw [h1, h2, mem_dkeys_dset, mem_dkeys_dset]
      exact or_congr Iff.rfl (hc u)
    · rw [h3]; exact n1
    · rw [h4]; exact n2
    · rw [h1]; exact nodup_dkeys_dset _ _ _ n3
    · rw [h2]; exact nodup_dkeys_dset _ _ _ n4

/-- C1: every `create_object` puts one main item and one minimap item
under the same uid, and every `create_connection` does the same for
connections, so after any sequence of create operations from the
initial state the main and minimap registries hold exactly the same
uids, each exactly once. -/
theorem create_twin_invariant (w h : ℚ) (ops : List CreateOp) :
    TwinInv (applyCreates (initNG w h) ops) := by
  have base : TwinInv (initNG w h) := by
    refine ⟨fun u => ?_, fun u => ?_, ?_, ?_, ?_, ?_⟩ <;> simp [initNG, dkeys]
  suffices hgen : ∀ st, TwinInv st → TwinInv (applyCreates st ops) from hgen _ base
  induction ops with
  | nil => exact fun st hst => hst
  | cons op rest ih => exact fun st hst => ih _ (applyCreate_twin st op hst)

/-- C9: an inbound message whose type tag is none of the fifteen
recognized types only logs a warning: the state — registries, pending
index, pan offset, scale, minimap extent — is returned unchanged and
nothing is sent outbound. -/
theorem on_message_unknown (st : NetGraph) (data : MsgData)
    (h : data.type ∉ ["net", "ens", "node", "conn", "pan", "zoom", "expand",
                      "collapse", "pos_size", "config", "js", "rename",
                      "remove", "reconnect", "delete_graph"]) :
    st.on_message data = (st, [Effect.warn "invalid message"]) := by
  simp only [List.mem_cons, List.not_mem_nil, or_false, not_or] at h
  obtain ⟨h1, h2, h3, h4, h5, h6, h7, h8, h9, h10, h11, h12, h13, h14, h15⟩ := h
  unfold NetGraph.on_message
  rw [if_neg h1, if_neg h2, if_neg h3, if_neg h4, if_neg h5, if_neg h6,
      if_neg h7, if_neg h8, if_neg h9, if_neg h10, if_neg h11, if_neg h12,
      if_neg h13, if_neg h14, if_neg h15]

/-- Witness for C9 at a concrete unknown message type. -/
theorem on_message_unknown_witness :
    (MsgData.mk "bogus" "" 0 0 0 0 0 0 0 "" "" [] [] false none).type
        ∉ ["net", "ens", "node", "conn", "pan", "zoom", "expand",
           "collapse", "pos_size", "config", "js", "rename",
           "remove", "reconnect", "delete_graph"] ∧
    (initNG 500 400).on_message (MsgData.mk "bogus" "" 0 0 0 0 0 0 0 "" "" [] [] false none)
      = (initNG 500 400, [Effect.warn "invalid message"]) :=
  ⟨by decide,
   on_message_unknown (initNG 500 400)
     (MsgData.mk "bogus" "" 0 0 0 0 0 0 0 "" "" [] [] false none) (by decide)⟩

/-- C8: a `reconnect` message for a registered connection replaces its
pre and post endpoint path descriptors, sets its recurrent flag exactly
when the first element of `pres` equals the first element of `posts`,
and redraws that connection; everything else is untouched. -/
theorem on_message_reconnect (st : NetGraph) (uid : String)
    (pres posts : List String) (c : Conn)
    (hc : dget st.svg_conns uid = some c) :
    st.on_message (MsgData.mk "reconnect" uid 0 0 0 0 0 0 0 "" "" pres posts false none)
      = ({ st with svg_conns := dset st.svg_conns uid
                        ({ c with pres := pres, posts := posts,
                                  recurrent := decide (pres.head? = posts.head?) }) },
         [Effect.redrawConn uid]) := by
  unfold NetGraph.on_message
  rw [if_neg (by simp), if_neg (by simp), if_neg (by simp),
      if_neg (by simp), if_neg (by simp), if_neg (by simp),
      if_neg (by simp), if_neg (by simp), if_neg (by simp),
      if_neg (by simp), if_neg (by simp), if_neg (by simp),
      if_neg (by simp), if_pos rfl]
  rw [show (MsgData.mk "reconnect" uid 0 0 0 0 0 0 0 "" "" pres posts false none).uid
        = uid from rfl, hc]

/-- A registered connection used to witness the reconnect dispatch. -/
def reconWitnessConn : Conn := Conn.mk "c1" ["a"] ["b"] false false false

/-- A NetGraph state holding `reconWitnessConn`. -/
def reconWitnessNG : NetGraph :=
  { initNG 500 400 with svg_conns := [("c1", reconWitnessConn)] }

/-- Witness for C8 at a concrete state and connection. -/
theorem on_message_reconnect_witness :
    dget reconWitnessNG.svg_conns "c1" = some reconWitnessConn ∧
    reconWitnessNG.on_message
        (MsgData.mk "reconnect" "c1" 0 0 0 0 0 0 0 "" "" ["x"] ["x"] false none)
      = ({ reconWitnessNG with
              svg_conns := dset reconWitnessNG.svg_conns "c1"
                  ({ reconWitnessConn with
                       pres := ["x"], posts := ["x"],
                       recurrent := decide ((["x"] : List String).head? = (["x"] : List String).head?) }) },
         [Effect.redrawConn "c1"]) :=
  ⟨rfl, on_message_reconnect reconWitnessNG "c1" ["x"] ["x"] reconWitnessConn rfl⟩

end NetGraphModel
